import Mathlib

/-!
Verification of the element-extraction core of `server.py` (macOS GUI tools).

The embedding models, from the source:
  - `get_center_point` (Python `//` is floor division, `Int.fdiv`);
  - `extract_elements` with its inner `traverse` closure, collecting button
    and text-area records in visitation (append) order;
  - the parsing of `tree['absolute_position']` via `str.split(',')` and
    `float(...)` (modelled by `splitChar` and `pyFloat` on character lists,
    since Python strings are character sequences);
  - `type_text` with its `text.split('\\n')` loop, as the list of keyboard
    actions it issues.

Numbers: box coordinates are integers; the window origin is parsed by
Python `float`, modelled exactly by rationals (every decimal literal the
model accepts is an exact binary-independent value; the model covers plain
decimal literals with optional sign, fraction part and surrounding
whitespace, which is the shape `absolute_position` metadata takes).
-/

namespace server

/-- A record appended to `buttons` or `text_areas` by `traverse` in
`extract_elements`: an absolute-screen center plus the node's
`description` and `role_description` fields. -/
structure LocatedElement where
  center : ℚ × ℚ
  description : Option String
  role_description : Option String
deriving Repr, DecidableEq

/-- An accessibility-tree node as `server.py` reads it: the dictionary keys
`absolute_position` (root metadata), `role`, `visible_bbox`, `description`,
`role_description` (each possibly absent) and the ordered `children` list. -/
inductive AXNode : Type where
  | node (absolute_position : Option String) (role : Option String)
      (visible_bbox : Option (Int × Int × Int × Int))
      (description : Option String) (role_description : Option String)
      (children : List AXNode) : AXNode

def AXNode.absolute_position : AXNode → Option String
  | .node p _ _ _ _ _ => p

def AXNode.role : AXNode → Option String
  | .node _ r _ _ _ _ => r

def AXNode.visible_bbox : AXNode → Option (Int × Int × Int × Int)
  | .node _ _ b _ _ _ => b

def AXNode.description : AXNode → Option String
  | .node _ _ _ d _ _ => d

def AXNode.role_description : AXNode → Option String
  | .node _ _ _ _ rd _ => rd

def AXNode.children : AXNode → List AXNode
  | .node _ _ _ _ _ cs => cs

/-- `get_center_point` of `server.py`: Python `//` on integers is floor
division, `Int.fdiv`. -/
def get_center_point (bbox : Int × Int × Int × Int) : Int × Int :=
  ((bbox.1 + bbox.2.2.1).fdiv 2, (bbox.2.1 + bbox.2.2.2).fdiv 2)

/-- Python `str.split(sep)` for a one-character separator, on character
lists: `''.split(',') = ['']`, adjacent separators yield empty fields. -/
def splitChar (sep : Char) : List Char → List (List Char)
  | [] => [[]]
  | c :: cs =>
    if c = sep then [] :: splitChar sep cs
    else
      match splitChar sep cs with
      | [] => [[c]]
      | t :: ts => (c :: t) :: ts

/-- Python `str.split(sep)` for a two-character separator (used by
`type_text` with the literal backslash-n sequence): scans left to right,
non-overlapping. -/
def splitTwo (a b : Char) : List Char → List (List Char)
  | [] => [[]]
  | [c] => [[c]]
  | c :: d :: cs =>
    if c = a ∧ d = b then [] :: splitTwo a b cs
    else
      match splitTwo a b (d :: cs) with
      | [] => [[c]]
      | t :: ts => (c :: t) :: ts

/-- The whitespace characters Python `float` strips from its argument. -/
def isPySpace (c : Char) : Bool :=
  c = ' ' || c = '\t' || c = '\n' || c = '\r' || c = '\x0b' || c = '\x0c'

def trimChars (cs : List Char) : List Char :=
  ((cs.dropWhile isPySpace).reverse.dropWhile isPySpace).reverse

/-- The value of a digit string (most significant first); `none` when a
character is not a decimal digit. The empty list is `some 0` so that
callers can require nonemptiness separately (Python `float` accepts
`"1."` and `".5"`). -/
def decDigitsVal : List Char → Option Nat
  | [] => some 0
  | c :: cs =>
    if c.isDigit then
      (decDigitsVal cs).map (fun v => (c.toNat - 48) * 10 ^ cs.length + v)
    else none

/-- Python `float(s)` on the decimal-literal inputs `absolute_position`
metadata takes: optional surrounding whitespace, optional sign, digits
with an optional single point (`"1."`, `".5"` accepted, `"."`, `""`,
non-digit characters rejected). Exponents and the named values
`inf`/`nan` are outside the modelled input shape. `none` models a raised
`ValueError`. -/
def pyFloat (s : List Char) : Option ℚ :=
  let t := trimChars s
  let (neg, body) :=
    match t with
    | '-' :: rest => (true, rest)
    | '+' :: rest => (false, rest)
    | rest => (false, rest)
  let mag : Option ℚ :=
    match splitChar '.' body with
    | [ip] =>
      if ip.isEmpty then none
      else (decDigitsVal ip).map (fun n => (n : ℚ))
    | [ip, fp] =>
      if ip.isEmpty && fp.isEmpty then none
      else
        match decDigitsVal ip, decDigitsVal fp with
        | some i, some f => some ((i : ℚ) + (f : ℚ) / (10 : ℚ) ^ fp.length)
        | _, _ => none
    | _ => none
  mag.map (fun m => if neg then -m else m)

/-- The exceptions the origin-parsing lines of `extract_elements` can
raise: a missing `absolute_position` key, an out-of-range index into the
split components, a `float()` conversion failure. -/
inductive PyError where
  | keyError
  | indexError
  | valueError
deriving Repr, DecidableEq

mutual
/-- The inner `traverse` closure of `extract_elements`: the pair of lists
this subtree appends to `buttons` and `text_areas`, in append order. The
node's own record (role in `['AXButton', 'AXMenuButton']`, or else
`'AXTextArea'`, each guarded by the presence of `visible_bbox`) comes
first, then the children's contributions in order. -/
def traverse (window_x window_y : ℚ) : AXNode → List LocatedElement × List LocatedElement
  | .node _ role bbox descr rdescr children =>
    let own : List LocatedElement × List LocatedElement :=
      match bbox with
      | some b =>
        if role = some "AXButton" ∨ role = some "AXMenuButton" then
          ([⟨(((get_center_point b).1 : ℚ) + window_x,
              ((get_center_point b).2 : ℚ) + window_y), descr, rdescr⟩], [])
        else if role = some "AXTextArea" then
          ([], [⟨(((get_center_point b).1 : ℚ) + window_x,
                  ((get_center_point b).2 : ℚ) + window_y), descr, rdescr⟩])
        else ([], [])
      | none => ([], [])
    let rest := traverseList window_x window_y children
    (own.1 ++ rest.1, own.2 ++ rest.2)

def traverseList (window_x window_y : ℚ) :
    List AXNode → List LocatedElement × List LocatedElement
  | [] => ([], [])
  | c :: cs =>
    let r := traverse window_x window_y c
    let rs := traverseList window_x window_y cs
    (r.1 ++ rs.1, r.2 ++ rs.2)
end

/-- `extract_elements` of `server.py`: parse
`tree['absolute_position'].split(',')`, convert components 0 and 1 with
`float` (Python evaluates `float(parts[0])` before indexing `parts[1]`,
so a lone non-numeric component raises `ValueError`, a lone numeric one
`IndexError`), then run the traversal. `Except.error` models a raised
exception. -/
def extract_elements (tree : AXNode) :
    Except PyError (List LocatedElement × List LocatedElement) :=
  match tree.absolute_position with
  | none => .error .keyError
  | some s =>
    match splitChar ',' s.data with
    | [] => .error .indexError
    | [p0] =>
      match pyFloat p0 with
      | none => .error .valueError
      | some _ => .error .indexError
    | p0 :: p1 :: _ =>
      match pyFloat p0 with
      | none => .error .valueError
      | some window_x =>
        match pyFloat p1 with
        | none => .error .valueError
        | some window_y => .ok (traverse window_x window_y tree)

/-- `get_ui_elements` of `server.py`: delegates to `extract_elements`. -/
def get_ui_elements (tree_json : AXNode) :
    Except PyError (List LocatedElement × List LocatedElement) :=
  extract_elements tree_json

mutual
/-- Pre-order listing of the tree's nodes: the node itself, then the
children's listings in original order. -/
def preorder : AXNode → List AXNode
  | .node p r b d rd cs => .node p r b d rd cs :: preorderList cs

def preorderList : List AXNode → List AXNode
  | [] => []
  | c :: cs => preorder c ++ preorderList cs
end

/-- The record a single node contributes to the `buttons` list, when it
does: role `AXButton` or `AXMenuButton` with a present `visible_bbox`. -/
def buttonElem (window_x window_y : ℚ) (n : AXNode) : Option LocatedElement :=
  match n.visible_bbox with
  | some b =>
    if n.role = some "AXButton" ∨ n.role = some "AXMenuButton" then
      some ⟨(((get_center_point b).1 : ℚ) + window_x,
             ((get_center_point b).2 : ℚ) + window_y), n.description, n.role_description⟩
    else none
  | none => none

/-- The record a single node contributes to the `text_areas` list, when it
does: role `AXTextArea` (and not a button role) with a present
`visible_bbox`. -/
def textAreaElem (window_x window_y : ℚ) (n : AXNode) : Option LocatedElement :=
  match n.visible_bbox with
  | some b =>
    if n.role = some "AXButton" ∨ n.role = some "AXMenuButton" then none
    else if n.role = some "AXTextArea" then
      some ⟨(((get_center_point b).1 : ℚ) + window_x,
             ((get_center_point b).2 : ℚ) + window_y), n.description, n.role_description⟩
    else none
  | none => none

mutual
/-- Depth of a tree (number of nodes on the longest root-to-leaf path),
measuring the recursion depth of `traverse`. -/
def AXNode.depth : AXNode → Nat
  | .node _ _ _ _ _ cs => depthList cs + 1

def depthList : List AXNode → Nat
  | [] => 0
  | c :: cs => max (AXNode.depth c) (depthList cs)
end

mutual
/-- `traverse` with an explicit recursion budget: `none` when the budget
runs out before the subtree is exhausted, `some` of the two lists
otherwise. Each recursive call into a child costs one unit, so a budget
of at least the tree's depth always suffices. -/
def traverseFuel (window_x window_y : ℚ) :
    Nat → AXNode → Option (List LocatedElement × List LocatedElement)
  | 0, _ => none
  | fuel + 1, .node _ role bbox descr rdescr children =>
    (traverseFuelList window_x window_y fuel children).map (fun rest =>
      let own : List LocatedElement × List LocatedElement :=
        match bbox with
        | some b =>
          if role = some "AXButton" ∨ role = some "AXMenuButton" then
            ([⟨(((get_center_point b).1 : ℚ) + window_x,
                ((get_center_point b).2 : ℚ) + window_y), descr, rdescr⟩], [])
          else if role = some "AXTextArea" then
            ([], [⟨(((get_center_point b).1 : ℚ) + window_x,
                    ((get_center_point b).2 : ℚ) + window_y), descr, rdescr⟩])
          else ([], [])
        | none => ([], [])
      (own.1 ++ rest.1, own.2 ++ rest.2))

def traverseFuelList (window_x window_y : ℚ) :
    Nat → List AXNode → Option (List LocatedElement × List LocatedElement)
  | _, [] => some ([], [])
  | fuel, c :: cs =>
    (traverseFuel window_x window_y fuel c).bind (fun r =>
      (traverseFuelList window_x window_y fuel cs).map (fun rs =>
        (r.1 ++ rs.1, r.2 ++ rs.2)))
end

/-- One keyboard action issued by `type_text`: a `pyautogui.typewrite`
of a line's characters, or a `pyautogui.press` of a named key. -/
inductive KeyAction where
  | typewrite (line : List Char)
  | press (key : String)
deriving Repr, DecidableEq

/-- `type_text` of `server.py`, as the sequence of keyboard actions it
issues: split the text on the literal two-character backslash-n sequence,
then for each line in order, type it and press enter when the line is not
the last or `press_enter_after` is set. -/
def type_text (text : String) (press_enter_after : Bool) : List KeyAction :=
  let lines := splitTwo '\\' 'n' text.data
  (lines.enum.map (fun il =>
    KeyAction.typewrite il.2 ::
      (if il.1 < lines.length - 1 || press_enter_after then [KeyAction.press "enter"] else []))).flatten

/-- Modelled from the spec's words for the typing contract: type each
segment in order, press enter after every segment except the last, and
press enter after the last segment exactly when the flag is set. Compared
against `type_text` for the refinement claim. -/
def typeTextSpec (flag : Bool) : List (List Char) → List KeyAction
  | [] => []
  | [s] => KeyAction.typewrite s :: (if flag then [KeyAction.press "enter"] else [])
  | s :: rest => KeyAction.typewrite s :: KeyAction.press "enter" :: typeTextSpec flag rest

/-- The spec's worked example: origin `(100, 200)`, child A a button with
box `(0, 0, 10, 10)`, child B a text area with box `(20, 20, 40, 40)`. -/
def exTree : AXNode :=
  .node (some "100,200") none none none none
    [.node none (some "AXButton") (some (0, 0, 10, 10)) none none [],
     .node none (some "AXTextArea") (some (20, 20, 40, 40)) none none []]

/-- A root whose `absolute_position` has a fractional x component, with a
single button child: exercises the un-truncated float translation. -/
def halfTree : AXNode :=
  .node (some "0.5,0") none none none none
    [.node none (some "AXButton") (some (0, 0, 10, 10)) none none []]

/-! Unfolding equations (the mutual definitions generate none usable by
`simp`, so they are recorded as `rfl` lemmas) and the pre-order
characterisation of the traversal. -/

theorem traverseList_nil (wx wy : ℚ) : traverseList wx wy [] = ([], []) := rfl

theorem traverseList_cons (wx wy : ℚ) (c : AXNode) (cs : List AXNode) :
    traverseList wx wy (c :: cs) =
      ((traverse wx wy c).1 ++ (traverseList wx wy cs).1,
       (traverse wx wy c).2 ++ (traverseList wx wy cs).2) := rfl

theorem preorder_node (p r : Option String) (bb : Option (Int × Int × Int × Int))
    (d rd : Option String) (cs : List AXNode) :
    preorder (.node p r bb d rd cs) = .node p r bb d rd cs :: preorderList cs := rfl

theorem preorderList_nil : preorderList [] = [] := rfl

theorem preorderList_cons (c : AXNode) (cs : List AXNode) :
    preorderList (c :: cs) = preorder c ++ preorderList cs := rfl

/-- A node's own contribution in `traverse` is exactly
`buttonElem`/`textAreaElem`, and the children's contribution follows it
whatever the node itself emitted. -/
theorem traverse_node (wx wy : ℚ) (p r : Option String)
    (bb : Option (Int × Int × Int × Int)) (d rd : Option String) (cs : List AXNode) :
    traverse wx wy (.node p r bb d rd cs) =
      ((buttonElem wx wy (.node p r bb d rd cs)).toList ++ (traverseList wx wy cs).1,
       (textAreaElem wx wy (.node p r bb d rd cs)).toList ++ (traverseList wx wy cs).2) := by
  unfold traverse
  unfold buttonElem textAreaElem
  simp only [AXNode.visible_bbox, AXNode.role, AXNode.description, AXNode.role_description]
  cases bb with
  | none => simp
  | some box =>
    by_cases hb : r = some "AXButton" ∨ r = some "AXMenuButton"
    · simp [hb]
    · by_cases ht : r = some "AXTextArea"
      · simp [hb, ht]
      · simp [hb, ht]

mutual
/-- The traversal's two lists are the pre-order node listing filtered
through the per-node contribution functions. -/
theorem traverse_eq_filterMap (wx wy : ℚ) :
    ∀ t : AXNode, traverse wx wy t =
      ((preorder t).filterMap (buttonElem wx wy), (preorder t).filterMap (textAreaElem wx wy))
  | .node p r bb d rd cs => by
    have ih := traverseList_eq_filterMap wx wy cs
    rw [traverse_node, preorder_node, ih]
    cases hb : buttonElem wx wy (.node p r bb d rd cs) <;>
      cases ht : textAreaElem wx wy (.node p r bb d rd cs) <;>
        simp [List.filterMap_cons, hb, ht]

theorem traverseList_eq_filterMap (wx wy : ℚ) :
    ∀ cs : List AXNode, traverseList wx wy cs =
      ((preorderList cs).filterMap (buttonElem wx wy),
       (preorderList cs).filterMap (textAreaElem wx wy))
  | [] => rfl
  | c :: cs => by
    have ih1 := traverse_eq_filterMap wx wy c
    have ih2 := traverseList_eq_filterMap wx wy cs
    rw [traverseList_cons, preorderList_cons, ih1, ih2]
    simp [List.filterMap_append]
end

/-- A node the code appends to the `buttons` list: button role and a
present bounding box. -/
def isButtonNode (n : AXNode) : Bool :=
  (n.role == some "AXButton" || n.role == some "AXMenuButton") && n.visible_bbox.isSome

/-- A node the code appends to the `text_areas` list: role `AXTextArea`
and a present bounding box. -/
def isTextAreaNode (n : AXNode) : Bool :=
  n.role == some "AXTextArea" && n.visible_bbox.isSome

theorem buttonElem_isSome (wx wy : ℚ) (n : AXNode) :
    (buttonElem wx wy n).isSome = isButtonNode n := by
  unfold buttonElem isButtonNode
  cases hb : n.visible_bbox with
  | none => simp
  | some box =>
    by_cases hr : n.role = some "AXButton" ∨ n.role = some "AXMenuButton"
    · simp [hr]
    · push_neg at hr
      simp [hr.1, hr.2]

theorem textAreaElem_isSome (wx wy : ℚ) (n : AXNode) :
    (textAreaElem wx wy n).isSome = isTextAreaNode n := by
  unfold textAreaElem isTextAreaNode
  cases hb : n.visible_bbox with
  | none => simp
  | some box =>
    by_cases hr : n.role = some "AXButton" ∨ n.role = some "AXMenuButton"
    · rcases hr with hr | hr <;> simp [hr]
    · by_cases ht : n.role = some "AXTextArea" <;> simp [hr, ht]

/-- No node qualifies for both lists: the role checks are mutually
exclusive string comparisons. -/
theorem button_textArea_disjoint (n : AXNode) :
    ¬(isButtonNode n = true ∧ isTextAreaNode n = true) := by
  rintro ⟨hb, ht⟩
  unfold isButtonNode at hb
  unfold isTextAreaNode at ht
  simp only [Bool.and_eq_true, Bool.or_eq_true, beq_iff_eq] at hb ht
  rcases hb.1 with h | h <;> rw [h] at ht <;> simp at ht

theorem length_filterMap_eq_countP {α β : Type} (f : α → Option β) (l : List α) :
    (l.filterMap f).length = l.countP (fun a => (f a).isSome) := by
  induction l with
  | nil => rfl
  | cons a l ih =>
    rw [List.filterMap_cons, List.countP_cons]
    cases h : f a <;> simp [h, ih]

mutual
/-- A recursion budget of at least the tree's depth lets the fuelled
traversal finish with exactly the unfuelled result. -/
theorem traverseFuel_complete (wx wy : ℚ) :
    ∀ (fuel : Nat) (t : AXNode), t.depth ≤ fuel →
      traverseFuel wx wy fuel t = some (traverse wx wy t)
  | fuel + 1, .node p r bb d rd cs, h => by
    have hcs : depthList cs ≤ fuel := by
      have : depthList cs + 1 ≤ fuel + 1 := h
      omega
    have ih := traverseFuelList_complete wx wy fuel cs hcs
    show (traverseFuelList wx wy fuel cs).map _ = _
    rw [ih]
    rfl
  | 0, .node p r bb d rd cs, h => by
    exfalso
    have : depthList cs + 1 ≤ 0 := h
    omega

theorem traverseFuelList_complete (wx wy : ℚ) :
    ∀ (fuel : Nat) (cs : List AXNode), depthList cs ≤ fuel →
      traverseFuelList wx wy fuel cs = some (traverseList wx wy cs)
  | _, [], _ => rfl
  | fuel, c :: cs, h => by
    have hd : max (AXNode.depth c) (depthList cs) ≤ fuel := h
    have ih1 := traverseFuel_complete wx wy fuel c (le_trans (le_max_left _ _) hd)
    have ih2 := traverseFuelList_complete wx wy fuel cs (le_trans (le_max_right _ _) hd)
    show (traverseFuel wx wy fuel c).bind _ = _
    rw [ih1, traverseList_cons]
    simp [ih2]
end

/-- The enumerate-and-flatten loop body of `type_text`, related to the
spec-worded per-segment recursion: proved for an arbitrary start index so
the induction goes through. -/
theorem type_text_loop_eq (flag : Bool) (n : Nat) :
    ∀ (k : Nat) (lines : List (List Char)), k + lines.length = n →
      ((List.enumFrom k lines).map (fun il =>
        KeyAction.typewrite il.2 ::
          (if il.1 < n - 1 || flag then [KeyAction.press "enter"] else []))).flatten
        = typeTextSpec flag lines
  | _, [], _ => rfl
  | k, [s], h => by
    have hk : ¬(k < n - 1) := by simp at h; omega
    simp [List.enumFrom_cons, typeTextSpec, hk]
  | k, s :: s2 :: rest, h => by
    have ih := type_text_loop_eq flag n (k + 1) (s2 :: rest) (by simp at h ⊢; omega)
    have hk : k < n - 1 := by simp at h; omega
    rw [List.enumFrom_cons, List.map_cons, List.flatten_cons, ih]
    simp [hk, typeTextSpec]

theorem countP_or_disjoint {α : Type} (p q : α → Bool)
    (h : ∀ a, ¬(p a = true ∧ q a = true)) :
    ∀ l : List α, l.countP (fun a => p a || q a) = l.countP p + l.countP q
  | [] => rfl
  | a :: l => by
    rw [List.countP_cons, List.countP_cons, List.countP_cons,
      countP_or_disjoint p q h l]
    by_cases hp : p a = true
    · have hq : ¬q a = true := fun hq => h a ⟨hp, hq⟩
      simp [hp, hq]
      omega
    · simp [hp]
      cases hq : q a <;> simp
      omega

/-- A single-button tree (no origin metadata needed for `traverse`),
used to instantiate the universally quantified claims. -/
def w1Node : AXNode := .node none (some "AXButton") (some (0, 0, 10, 10)) none none []

/-- A node with an unrecognized role and a bounding box, wrapping a
button child. -/
def w7Node : AXNode :=
  .node none (some "AXGroup") (some (0, 0, 4, 4)) none none
    [.node none (some "AXButton") (some (0, 0, 2, 2)) none none []]

/-- C2: a node with a button role (`AXButton`/`AXMenuButton`) and a
present bounding box `(x1, y1, x2, y2)` contributes exactly one record to
the clickable list (the list is the pre-order filter of per-node
contributions, and this node's contribution is exactly one element),
whose center is the floor-divided box center translated by the window
origin: `((x1+x2)//2 + originX, (y1+y2)//2 + originY)`. -/
theorem C2_button_center (wx wy : ℚ) (t n : AXNode) (x1 y1 x2 y2 : ℤ)
    (hrole : n.role = some "AXButton" ∨ n.role = some "AXMenuButton")
    (hbox : n.visible_bbox = some (x1, y1, x2, y2)) :
    (traverse wx wy t).1 = (preorder t).filterMap (buttonElem wx wy) ∧
    buttonElem wx wy n =
      some ⟨((((x1 + x2).fdiv 2 : ℤ) : ℚ) + wx, (((y1 + y2).fdiv 2 : ℤ) : ℚ) + wy),
        n.description, n.role_description⟩ := by
  constructor
  · rw [traverse_eq_filterMap]
  · rcases hrole with h | h <;>
      simp [buttonElem, hbox, h, get_center_point]

theorem C2_button_center_witness :
    (traverse 1 2 w1Node).1 = (preorder w1Node).filterMap (buttonElem 1 2) ∧
    buttonElem 1 2 w1Node =
      some ⟨((((0 + 10 : ℤ).fdiv 2 : ℤ) : ℚ) + 1, (((0 + 10 : ℤ).fdiv 2 : ℤ) : ℚ) + 2),
        w1Node.description, w1Node.role_description⟩ :=
  C2_button_center 1 2 w1Node w1Node 0 0 10 10 (Or.inl rfl) rfl

/-- C4: each node contributes to at most one output list (the two
qualifying predicates are disjoint, and each list's length counts exactly
its own qualifying nodes), the two lists together hold exactly one entry
per qualifying node of the pre-order listing, and a node's children are
traversed regardless of what the node itself emitted (the node equation
appends the children's results after the node's own, which is empty for
non-emitting or box-less nodes). -/
theorem C4_one_entry_per_qualifying_node (wx wy : ℚ) (t : AXNode) :
    ((traverse wx wy t).1.length = (preorder t).countP isButtonNode ∧
     (traverse wx wy t).2.length = (preorder t).countP isTextAreaNode ∧
     (traverse wx wy t).1.length + (traverse wx wy t).2.length =
       (preorder t).countP (fun n => isButtonNode n || isTextAreaNode n)) ∧
    (∀ n : AXNode, ¬(isButtonNode n = true ∧ isTextAreaNode n = true)) ∧
    (∀ (p r : Option String) (bb : Option (Int × Int × Int × Int))
       (d rd : Option String) (cs : List AXNode),
      traverse wx wy (.node p r bb d rd cs) =
        ((buttonElem wx wy (.node p r bb d rd cs)).toList ++ (traverseList wx wy cs).1,
         (textAreaElem wx wy (.node p r bb d rd cs)).toList ++ (traverseList wx wy cs).2)) := by
  have h1 : (traverse wx wy t).1.length = (preorder t).countP isButtonNode := by
    rw [traverse_eq_filterMap]
    rw [length_filterMap_eq_countP]
    simp only [buttonElem_isSome]
  have h2 : (traverse wx wy t).2.length = (preorder t).countP isTextAreaNode := by
    rw [traverse_eq_filterMap]
    rw [length_filterMap_eq_countP]
    simp only [textAreaElem_isSome]
  refine ⟨⟨h1, h2, ?_⟩, button_textArea_disjoint, traverse_node wx wy⟩
  rw [h1, h2, countP_or_disjoint isButtonNode isTextAreaNode button_textArea_disjoint]

/-- C5: each output list is ordered by the pre-order depth-first
visitation of the tree (parent before children, children in original
order), and re-running the extraction on the same input yields the same
output (the function is pure, so determinism is definitional). -/
theorem C5_preorder_order_deterministic (wx wy : ℚ) (t : AXNode) :
    (traverse wx wy t).1 = (preorder t).filterMap (buttonElem wx wy) ∧
    (traverse wx wy t).2 = (preorder t).filterMap (textAreaElem wx wy) ∧
    traverse wx wy t = traverse wx wy t := by
  rw [traverse_eq_filterMap]
  exact ⟨rfl, rfl, rfl⟩

/-- C7: a node with a missing or unrecognized role emits nothing (no
error is possible: the traversal is total) and its subtree result is
exactly its children's traversal, so qualifying descendants still
appear. -/
theorem C7_unrecognized_role_skipped (wx wy : ℚ) (n : AXNode)
    (h : n.role = none ∨
      (n.role ≠ some "AXButton" ∧ n.role ≠ some "AXMenuButton" ∧
       n.role ≠ some "AXTextArea")) :
    traverse wx wy n = traverseList wx wy n.children := by
  cases n with
  | node p r bb d rd cs =>
    simp only [AXNode.role] at h
    have hb : buttonElem wx wy (.node p r bb d rd cs) = none := by
      unfold buttonElem
      simp only [AXNode.visible_bbox, AXNode.role]
      rcases h with h | h
      · cases bb <;> simp [h]
      · cases bb <;> simp [h.1, h.2.1]
    have ht : textAreaElem wx wy (.node p r bb d rd cs) = none := by
      unfold textAreaElem
      simp only [AXNode.visible_bbox, AXNode.role]
      rcases h with h | h
      · cases bb <;> simp [h]
      · cases bb <;> simp [h.1, h.2.1, h.2.2]
    rw [traverse_node, hb, ht]
    simp [AXNode.children]

theorem C7_witness :
    traverse 0 0 w7Node = traverseList 0 0 w7Node.children :=
  C7_unrecognized_role_skipped 0 0 w7Node
    (Or.inr ⟨by decide, by decide, by decide⟩)

/-- C9: on every finite tree the recursion runs to completion — the
fuelled traversal, which charges one unit per recursive call, succeeds
with exactly the unfuelled result whenever the budget covers the tree's
depth. -/
theorem C9_traversal_terminates (wx wy : ℚ) (fuel : Nat) (t : AXNode)
    (h : t.depth ≤ fuel) :
    traverseFuel wx wy fuel t = some (traverse wx wy t) :=
  traverseFuel_complete wx wy fuel t h

theorem C9_witness :
    exTree.depth ≤ 2 ∧ traverseFuel 3 4 2 exTree = some (traverse 3 4 exTree) :=
  ⟨by decide, C9_traversal_terminates 3 4 2 exTree (by decide)⟩

/-- A root whose origin metadata has no comma: `float('abc')` or the
missing second component makes extraction fail. -/
def w6Node : AXNode := .node (some "abc") none none none none []

/-- A root whose origin metadata has three comma-separated components. -/
def w10Node : AXNode := .node (some "1,2,3") none none none none []

/-- `extract_elements` once the root's `absolute_position` is known. -/
theorem extract_elements_some (t : AXNode) (s : String)
    (h : t.absolute_position = some s) :
    extract_elements t =
      (match splitChar ',' s.data with
       | [] => .error .indexError
       | [p0] =>
         match pyFloat p0 with
         | none => .error .valueError
         | some _ => .error .indexError
       | p0 :: p1 :: _ =>
         match pyFloat p0 with
         | none => .error .valueError
         | some window_x =>
           match pyFloat p1 with
           | none => .error .valueError
           | some window_y => .ok (traverse window_x window_y t)) := by
  unfold extract_elements
  rw [h]

/-- C6: when the window-origin metadata is missing, has fewer than two
comma-separated components, or a component `float` cannot parse,
`extract_elements` raises (returns a structured error), never an `ok`
with a defaulted origin. -/
theorem C6_malformed_origin_fails (t : AXNode)
    (h : t.absolute_position = none ∨
      ∃ s : String, t.absolute_position = some s ∧
        ((splitChar ',' s.data).length < 2 ∨
         pyFloat (splitChar ',' s.data).headI = none ∨
         pyFloat ((splitChar ',' s.data).getD 1 []) = none)) :
    ∃ e : PyError, extract_elements t = .error e := by
  rcases h with h | ⟨s, hs, hcase⟩
  · refine ⟨.keyError, ?_⟩
    unfold extract_elements
    rw [h]
  · rw [extract_elements_some t s hs]
    split
    · exact ⟨.indexError, rfl⟩
    · split
      · exact ⟨.valueError, rfl⟩
      · exact ⟨.indexError, rfl⟩
    · rename_i p0 p1 tail hps
      split
      · exact ⟨.valueError, rfl⟩
      · rename_i wx hp0
        split
        · exact ⟨.valueError, rfl⟩
        · rename_i wy hp1
          exfalso
          rw [hps] at hcase
          rcases hcase with hlen | h0 | h1
          · simp at hlen
            omega
          · simp only [List.headI] at h0
            simp [h0] at hp0
          · simp only [List.getD_cons_succ, List.getD_cons_zero] at h1
            simp [h1] at hp1

theorem C6_witness : ∃ e : PyError, extract_elements w6Node = .error e :=
  C6_malformed_origin_fails w6Node (Or.inr ⟨"abc", rfl, Or.inl (by decide)⟩)

/-- C10: with more than two comma-separated components whose first two
parse as floats, extraction does not fail: it uses the first two as the
origin and ignores the rest. -/
theorem C10_extra_components_ignored (t : AXNode) (s : String) (p0 p1 : List Char)
    (rest : List (List Char)) (wx wy : ℚ)
    (hpos : t.absolute_position = some s)
    (hsplit : splitChar ',' s.data = p0 :: p1 :: rest)
    (hrest : rest ≠ [])
    (h0 : pyFloat p0 = some wx) (h1 : pyFloat p1 = some wy) :
    extract_elements t = .ok (traverse wx wy t) := by
  have hne := hrest
  rw [extract_elements_some t s hpos, hsplit]
  show (match pyFloat p0 with
        | none => Except.error PyError.valueError
        | some window_x =>
          match pyFloat p1 with
          | none => Except.error PyError.valueError
          | some window_y => Except.ok (traverse window_x window_y t)) = _
  rw [h0, h1]

theorem C10_witness : extract_elements w10Node = .ok (traverse 1 2 w10Node) :=
  C10_extra_components_ignored w10Node "1,2,3" ['1'] ['2'] [['3']] 1 2 rfl
    (by decide) (by decide) (by decide) (by decide)

/-- C8: `type_text` splits on the literal backslash-n two-character
sequence, types each segment in order, presses enter after every segment
but the last, and presses enter after the last exactly when the flag is
set — the loop equals the spec-worded per-segment recursion. -/
theorem C8_type_text_per_line (text : String) (press_enter_after : Bool) :
    type_text text press_enter_after =
      typeTextSpec press_enter_after (splitTwo '\\' 'n' text.data) :=
  type_text_loop_eq press_enter_after (splitTwo '\\' 'n' text.data).length 0
    (splitTwo '\\' 'n' text.data) (by omega)

/-- Inverting a button contribution: the record's center is the box
center (an integer point) translated by the origin. -/
theorem buttonElem_center (wx wy : ℚ) (n : AXNode) (e : LocatedElement)
    (he : buttonElem wx wy n = some e) :
    ∃ b, n.visible_bbox = some b ∧
      e.center = (((get_center_point b).1 : ℚ) + wx, ((get_center_point b).2 : ℚ) + wy) := by
  unfold buttonElem at he
  split at he
  · rename_i b hb
    split at he
    · simp only [Option.some.injEq] at he
      exact ⟨b, hb, by rw [← he]⟩
    · cases he
  · cases he

/-- Inverting a text-area contribution: same center shape. -/
theorem textAreaElem_center (wx wy : ℚ) (n : AXNode) (e : LocatedElement)
    (he : textAreaElem wx wy n = some e) :
    ∃ b, n.visible_bbox = some b ∧
      e.center = (((get_center_point b).1 : ℚ) + wx, ((get_center_point b).2 : ℚ) + wy) := by
  unfold textAreaElem at he
  split at he
  · rename_i b hb
    split at he
    · cases he
    · split at he
      · simp only [Option.some.injEq] at he
        exact ⟨b, hb, by rw [← he]⟩
      · cases he
  · cases he

/-- C1 counterexample: with window origin `(0.5, 0)` (a legal pair of
float offsets) the single emitted button center is `(5.5, 5)`: its x
coordinate is not an integer, so centers are not reported as truncated
integers. -/
theorem C1_counterexample :
    (extract_elements halfTree).map
      (fun r => (r.1.map LocatedElement.center, r.2.map LocatedElement.center))
      = .ok ([((11 : ℚ) / 2, (5 : ℚ))], []) ∧
    ¬∃ z : ℤ, (11 : ℚ) / 2 = (z : ℚ) := by
  constructor
  · have h : extract_elements halfTree =
        .ok ([⟨(((5 : ℤ) : ℚ) + (((0 : ℕ) : ℚ) + ((5 : ℕ) : ℚ) / (10 : ℚ) ^ 1),
                ((5 : ℤ) : ℚ) + ((0 : ℕ) : ℚ)), none, none⟩], []) := rfl
    rw [h]
    simp only [Except.map]
    norm_num
  · rintro ⟨z, hz⟩
    have h2 : (11 : ℚ) = 2 * (z : ℚ) := by
      field_simp at hz
      linarith
    have h3 : (11 : ℤ) = 2 * z := by exact_mod_cast h2
    omega

/-- C1 amended: every emitted center equals the integer (floor-divided)
window-relative box center translated by the window origin, with no
truncation applied to the sum — so the coordinates are integers exactly
when the origin components are, and a fractional origin propagates into
the output. -/
theorem C1_centers_not_truncated (wx wy : ℚ) (t : AXNode) (e : LocatedElement)
    (h : e ∈ (traverse wx wy t).1 ∨ e ∈ (traverse wx wy t).2) :
    (∃ cx : ℤ, e.center.1 = (cx : ℚ) + wx) ∧ (∃ cy : ℤ, e.center.2 = (cy : ℚ) + wy) := by
  rw [traverse_eq_filterMap] at h
  rcases h with h | h
  · simp only [List.mem_filterMap] at h
    obtain ⟨n, _, he⟩ := h
    obtain ⟨b, _, hc⟩ := buttonElem_center wx wy n e he
    rw [hc]
    exact ⟨⟨(get_center_point b).1, rfl⟩, ⟨(get_center_point b).2, rfl⟩⟩
  · simp only [List.mem_filterMap] at h
    obtain ⟨n, _, he⟩ := h
    obtain ⟨b, _, hc⟩ := textAreaElem_center wx wy n e he
    rw [hc]
    exact ⟨⟨(get_center_point b).1, rfl⟩, ⟨(get_center_point b).2, rfl⟩⟩

/-- The element `traverse 0 0` emits for `w1Node`. -/
def w1Elem : LocatedElement := ⟨(((5 : ℤ) : ℚ) + 0, ((5 : ℤ) : ℚ) + 0), none, none⟩

theorem C1_witness :
    (∃ cx : ℤ, w1Elem.center.1 = (cx : ℚ) + 0) ∧
    (∃ cy : ℤ, w1Elem.center.2 = (cy : ℚ) + 0) :=
  C1_centers_not_truncated 0 0 w1Node w1Elem (Or.inl (List.Mem.head _))

/-- C3 counterexample: on the spec's worked example the text-area record's
center is `(130, 230)` — `(20+40)//2 = 30` and `200 + 30 = 230` — not
`(130, 220)` as the claim states. -/
theorem C3_counterexample :
    (extract_elements exTree).map
      (fun r => (r.1.map LocatedElement.center, r.2.map LocatedElement.center))
      = .ok ([((105 : ℚ), (205 : ℚ))], [((130 : ℚ), (230 : ℚ))]) ∧
    ((130 : ℚ), (230 : ℚ)) ≠ ((130 : ℚ), (220 : ℚ)) := by
  constructor
  · have h : extract_elements exTree =
        .ok ([⟨(((5 : ℤ) : ℚ) + ((100 : ℕ) : ℚ), ((5 : ℤ) : ℚ) + ((200 : ℕ) : ℚ)), none, none⟩],
             [⟨(((30 : ℤ) : ℚ) + ((100 : ℕ) : ℚ), ((30 : ℤ) : ℚ) + ((200 : ℕ) : ℚ)), none, none⟩]) := rfl
    rw [h]
    simp only [Except.map]
    norm_num
  · intro hc
    rw [Prod.mk.injEq] at hc
    norm_num at hc

/-- C3 amended: on the worked example the clickable list is the single
record with center `(105, 205)` and the text-input list the single record
with center `(130, 230)` (the spec's `220` miscomputes the y center). -/
theorem C3_worked_example :
    extract_elements exTree =
      .ok ([⟨((105 : ℚ), (205 : ℚ)), none, none⟩],
           [⟨((130 : ℚ), (230 : ℚ)), none, none⟩]) := by
  have h : extract_elements exTree =
      .ok ([⟨(((5 : ℤ) : ℚ) + ((100 : ℕ) : ℚ), ((5 : ℤ) : ℚ) + ((200 : ℕ) : ℚ)), none, none⟩],
           [⟨(((30 : ℤ) : ℚ) + ((100 : ℕ) : ℚ), ((30 : ℤ) : ℚ) + ((200 : ℕ) : ℚ)), none, none⟩]) := rfl
  rw [h]
  norm_num

end server
